import Mathlib

/-! # Coherent-breathing timer (`app.js`) and its offline cache (`service-worker.js`)

A shallow embedding of the session controller of `src/app.js` and of the
fetch handler of `src/service-worker.js`, followed by the properties of the
specification that were checked against them.

Conventions of the embedding

* `state.countdown` only ever receives the values `5.5`, `5` and
  `countdown - 1`, all multiples of one half that binary floating point holds
  exactly.  It is held as a whole number of HALF-SECONDS (`Int`): `11` is
  `5.5`, `10` is `5`, and subtracting one second subtracts `2`.
* `totalTime`, `halfTickCounter` and `count` are JavaScript numbers holding
  small non-negative integers; they are natural numbers here.
* The timer created by `setInterval` is the flag `intervalActive`; a timer
  firing is the event `tick`, which runs the callback only while the flag is
  set.  `performance.now()` is passed to the callback as an argument.
* Sound, wake lock and canvas drawing do not feed back into the session
  state and are left out.
-/

namespace Cbo

/-! ## The session state of `app.js` -/

/-- Constant `PHASE_DURATION = 5.5`, in half-seconds. -/
def PHASE_DURATION : Int := 11

/-- The object `state` of `app.js` (`countdown` in half-seconds). -/
structure State where
  isPlaying : Bool
  countdown : Int
  count : Nat
  totalTime : Nat
  soundEnabled : Bool
  timeLimit : String
  timeLimitReached : Bool
  sessionComplete : Bool
  pulseStartTime : Option Nat
  halfTickDone : Bool
  deriving DecidableEq

/-- The literal that initialises `state`. -/
def initialState : State :=
  { isPlaying := false
    countdown := PHASE_DURATION
    count := 0
    totalTime := 0
    soundEnabled := false
    timeLimit := ""
    timeLimitReached := false
    sessionComplete := false
    pulseStartTime := none
    halfTickDone := false }

/-- The page: `state` together with the closure variables `interval`
(whether a timer is armed) and `halfTickCounter`. -/
structure Page where
  state : State
  intervalActive : Bool
  halfTickCounter : Nat
  deriving DecidableEq

/-- The page right after the script has run: `let interval;` is unset and
`let halfTickCounter = 0`. -/
def initialPage : Page :=
  { state := initialState, intervalActive := false, halfTickCounter := 0 }

/-! ## `parseInt` -/

/-- White space and line terminators skipped by `parseInt`. -/
def isWhiteSpace (c : Char) : Bool :=
  c.val.toNat ∈ [0x09, 0x0A, 0x0B, 0x0C, 0x0D, 0x20, 0xA0, 0x1680, 0x2000, 0x2001, 0x2002,
    0x2003, 0x2004, 0x2005, 0x2006, 0x2007, 0x2008, 0x2009, 0x200A, 0x2028, 0x2029, 0x202F,
    0x205F, 0x3000, 0xFEFF]

/-- Value of a character as a digit, letters counting from ten. -/
def digitValue (c : Char) : Option Nat :=
  if '0' ≤ c ∧ c ≤ '9' then some (c.toNat - '0'.toNat)
  else if 'a' ≤ c ∧ c ≤ 'z' then some (c.toNat - 'a'.toNat + 10)
  else if 'A' ≤ c ∧ c ≤ 'Z' then some (c.toNat - 'A'.toNat + 10)
  else none

/-- Whether `c` is a digit of the given radix. -/
def isRadixDigit (radix : Nat) (c : Char) : Bool :=
  match digitValue c with
  | some v => decide (v < radix)
  | none => false

/-- Value of a run of digits, most significant first. -/
def digitsValue (radix : Nat) (cs : List Char) : Nat :=
  cs.foldl (fun acc c => acc * radix + (digitValue c).getD 0) 0

/-- Built-in `parseInt(string)` without a radix; `none` is `NaN`.  Leading
white space is skipped, one sign is read, `0x`/`0X` selects radix sixteen,
and the longest run of digits is converted (exactly: values are not rounded
to a double). -/
def parseInt (s : String) : Option Int :=
  let cs := s.data.dropWhile isWhiteSpace
  let signed : Int × List Char :=
    match cs with
    | '-' :: rest => (-1, rest)
    | '+' :: rest => (1, rest)
    | _ => (1, cs)
  let based : Nat × List Char :=
    match signed.2 with
    | '0' :: 'x' :: rest => (16, rest)
    | '0' :: 'X' :: rest => (16, rest)
    | _ => (10, signed.2)
  let digits := based.2.takeWhile (isRadixDigit based.1)
  if digits.isEmpty then none else some (signed.1 * (digitsValue based.1 digits : Int))

/-! ## The interval callback, statement by statement -/

/-- Statement `if (halfTickCounter % 2 === 0) state.totalTime++`, with `halfTickCounter`
already incremented. -/
def bumpTotalTime (halfTickCounter : Nat) (s : State) : State :=
  if halfTickCounter % 2 = 0 then { s with totalTime := s.totalTime + 1 } else s

/-- The countdown step: `5` on the first tick of a phase, one second less on
the others. -/
def stepCountdown (s : State) : State :=
  if !s.halfTickDone then
    { s with countdown := 10, halfTickDone := true }
  else
    { s with countdown := s.countdown - 2 }

/-- The time-limit check: a non-empty `timeLimit` not yet reached is parsed
and compared with `totalTime`; a comparison with `NaN` is false. -/
def checkTimeLimit (s : State) : State :=
  if s.timeLimit ≠ "" ∧ !s.timeLimitReached then
    match parseInt s.timeLimit with
    | some minutes =>
      if (s.totalTime : Int) ≥ minutes * 60 then { s with timeLimitReached := true } else s
    | none => s
  else s

/-- The state as it stands when the callback reaches `if (state.countdown === 0)`. -/
def beforePhaseCheck (p : Page) : State :=
  checkTimeLimit (stepCountdown (bumpTotalTime (p.halfTickCounter + 1) p.state))

/-- The callback passed to `setInterval` in `startInterval`; `now` is the
value of `performance.now()`. -/
def intervalCallback (now : Nat) (p : Page) : Page :=
  let halfTickCounter := p.halfTickCounter + 1
  let s := beforePhaseCheck p
  if s.countdown = 0 then
    if s.count = 1 ∧ s.timeLimitReached then
      { state := { s with sessionComplete := true, isPlaying := false }
        intervalActive := false
        halfTickCounter := halfTickCounter }
    else
      { state := { s with
                     count := (s.count + 1) % 2
                     countdown := PHASE_DURATION
                     halfTickDone := false
                     pulseStartTime := some now }
        intervalActive := p.intervalActive
        halfTickCounter := halfTickCounter }
  else
    { state := s, intervalActive := p.intervalActive, halfTickCounter := halfTickCounter }

/-- One firing of the 500 ms timer: the callback runs only while the timer is armed. -/
def tick (now : Nat) (p : Page) : Page :=
  if p.intervalActive then intervalCallback now p else p

/-- A sequence of timer firings, one per timestamp, oldest first. -/
def runTicks (nows : List Nat) (p : Page) : Page :=
  nows.foldl (fun q now => tick now q) p

/-! ## UI actions -/

/-- The body of `startInterval` up to and including the call of `setInterval`. -/
def startInterval (p : Page) : Page :=
  { state := { p.state with countdown := PHASE_DURATION, halfTickDone := false }
    intervalActive := true
    halfTickCounter := 0 }

/-- The function `togglePlay`. -/
def togglePlay (p : Page) : Page :=
  let s := { p.state with isPlaying := !p.state.isPlaying }
  if s.isPlaying then
    startInterval
      { p with state := { s with
                            totalTime := 0
                            timeLimitReached := false
                            sessionComplete := false
                            count := 0 } }
  else
    { p with state := s, intervalActive := false }

/-- The function `resetToStart`: `clearInterval` and the `Object.assign` of
seven fields. -/
def resetToStart (p : Page) : Page :=
  { p with
      intervalActive := false
      state := { p.state with
                   isPlaying := false
                   countdown := PHASE_DURATION
                   count := 0
                   totalTime := 0
                   timeLimit := ""
                   timeLimitReached := false
                   sessionComplete := false } }

/-- The function `toggleSound`. -/
def toggleSound (p : Page) : Page :=
  { p with state := { p.state with soundEnabled := !p.state.soundEnabled } }

/-- Method `String.prototype.replace` with a global pattern that is one character
class: every character of the class is replaced by `replacement`, the others
are kept. -/
def replaceClass (cls : Char → Bool) (replacement : String) (s : String) : String :=
  String.mk (s.data.flatMap fun c => if cls c then replacement.data else [c])

/-- The character class `[^0-9]`. -/
def notDigit (c : Char) : Bool :=
  !(decide ('0' ≤ c ∧ c ≤ '9'))

/-- The function `handleTimeLimitChange`; `value` is `e.target.value`. -/
def handleTimeLimitChange (value : String) (p : Page) : Page :=
  { p with state := { p.state with timeLimit := replaceClass notDigit "" value } }

/-- The function `startWithPreset`; `Number.prototype.toString` of a
non-negative integer is its decimal numeral. -/
def startWithPreset (min : Nat) (p : Page) : Page :=
  togglePlay { p with state := { p.state with timeLimit := toString min } }

/-! ## Rendering of the countdown -/

/-- Method `Number.prototype.toString` on a number of half-seconds: the integer part,
followed by `.5` when the number of halves is odd. -/
def numberToString (halves : Int) : String :=
  (if halves < 0 then "-" else "") ++ toString (halves.natAbs / 2) ++
    (if halves.natAbs % 2 = 1 then ".5" else "")

/-- The text placed in `<div class="countdown">` by `render`:
`state.countdown === 5 ? '5' : state.countdown`. -/
def countdownText (s : State) : String :=
  if s.countdown = 10 then "5" else numberToString s.countdown

/-- Whether `render` emits the countdown block at all. -/
def showsCountdown (s : State) : Bool :=
  s.isPlaying

/-! ## The fetch handler of `service-worker.js`

The handler reads `request.mode`, `response.status` and `response.type`
itself; the Cache API it calls also looks at the request's method, URL and
headers and at the response's `Vary` header, so these are part of the model.
URLs are resolved absolute URLs; the `fetch` event is dispatched for http(s)
requests only, so the scheme test of `cache.put` always passes and is left
out.  Header names are lower-case.  The promise chain is run to completion
in one step: the `cache.put` that the handler starts without waiting for it
has settled (stored the entry, or rejected and stored nothing) when the
storage is looked at again. -/

/-- Constant `CACHE_NAME`. -/
def CACHE_NAME : String := "coherent-breathing-cache-v1"

/-- The URL that `'./index.html'` resolves to. -/
def shellUrl : String := "./index.html"

/-- A request: URL, method, mode and header list. -/
structure Request where
  url : String
  method : String
  mode : String
  headers : List (String × String)
  deriving DecidableEq

/-- A response: status, type, the field names listed by its `Vary` header
(empty when it has none) and the body. -/
structure Response where
  status : Nat
  type : String
  vary : List String
  body : String
  deriving DecidableEq

/-- The request that `caches.match('./index.html')` builds from its string
argument: `new Request(url)` is a `GET` without headers. -/
def shellRequest : Request :=
  { url := shellUrl, method := "GET", mode := "cors", headers := [] }

/-- One named cache: its (request, response) entries in insertion order. -/
abbrev Cache := List (Request × Response)

/-- The cache storage `caches`: the named caches in creation order. -/
abbrev CacheStorage := List (String × Cache)

/-- A URL without its fragment, as the Cache API compares URLs. -/
def urlWithoutFragment (url : String) : String :=
  String.mk (url.data.takeWhile fun c => c != '#')

/-- The value of a header in a header list. -/
def headerValue (headers : List (String × String)) (name : String) : Option String :=
  (headers.find? fun h => h.1 == name).map Prod.snd

/-- The Cache API test "request matches cached item" with default options:
the URLs agree up to the fragment, and for every field name in the cached
response's `Vary` header the two requests carry the same value; `*` never
matches. -/
def requestMatches (query : Request) (entry : Request × Response) : Bool :=
  urlWithoutFragment query.url == urlWithoutFragment entry.1.url &&
    entry.2.vary.all fun field =>
      field != "*" && headerValue query.headers field == headerValue entry.1.headers field

/-- Method `cache.match(request)`: nothing for a request that is not a `GET`,
otherwise the response of the first matching entry. -/
def cacheMatch (c : Cache) (request : Request) : Option Response :=
  if request.method = "GET" then (c.find? (requestMatches request)).map Prod.snd else none

/-- Method `caches.match(request)`: the first hit among the caches, in
creation order. -/
def cachesMatch : CacheStorage → Request → Option Response
  | [], _ => none
  | (_, c) :: rest, request =>
    match cacheMatch c request with
    | some r => some r
    | none => cachesMatch rest request

/-- Whether `cache.put(request, response)` is accepted: it rejects with a
`TypeError` for a request that is not a `GET`, for a status `206` and for a
response whose `Vary` header lists `*`. -/
def putAccepted (request : Request) (r : Response) : Bool :=
  request.method == "GET" && r.status != 206 && !(r.vary.contains "*")

/-- Method `cache.put(request, response)`: when accepted, the entries that
match the request are removed and the new entry is appended; when rejected
(`none`) the cache is not changed. -/
def cachePut (c : Cache) (request : Request) (r : Response) : Option Cache :=
  if putAccepted request r then
    some ((c.filter fun e => !requestMatches request e) ++ [(request, r)])
  else none

/-- Chain `caches.open(name).then(cache => cache.put(request, r))`, not
awaited and without a rejection handler: the cache is created when it does
not exist yet, and a rejected `put` leaves its entries as they were. -/
def cachesOpenPut : CacheStorage → String → Request → Response → CacheStorage
  | [], name, request, r => [(name, (cachePut [] request r).getD [])]
  | (n, c) :: rest, name, request, r =>
    if n == name then (n, (cachePut c request r).getD c) :: rest
    else (n, c) :: cachesOpenPut rest name request r

/-- The cache named `name`, empty when there is none. -/
def cacheNamed (cs : CacheStorage) (name : String) : Cache :=
  ((cs.find? fun e => e.1 == name).map Prod.snd).getD []

/-- How the promise handed to `respondWith` settles: fulfilled with a
response or with `undefined` (`none`), or rejected with an error. -/
inductive Settled where
  | fulfilled (value : Option Response)
  | rejected (error : String)
  deriving DecidableEq

/-- What one run of the fetch handler leaves behind: the settled promise,
the cache storage, and the requests that went to the network. -/
structure Handled where
  result : Settled
  caches : CacheStorage
  networkRequests : List Request
  deriving DecidableEq

/-- The `fetch` event listener.  `network` is the platform `fetch`: it
answers a request with a response or fails with an error. -/
def onFetch (network : Request → Except String Response) (cs : CacheStorage)
    (request : Request) : Handled :=
  match cachesMatch cs request with
  | some resp => { result := .fulfilled (some resp), caches := cs, networkRequests := [] }
  | none =>
    match network request with
    | .ok netResp =>
      if netResp.status ≠ 200 ∨ netResp.type ≠ "basic" then
        { result := .fulfilled (some netResp), caches := cs, networkRequests := [request] }
      else
        { result := .fulfilled (some netResp)
          caches := cachesOpenPut cs CACHE_NAME request netResp
          networkRequests := [request] }
    | .error _ =>
      { result := .fulfilled (if request.mode = "navigate" then cachesMatch cs shellRequest
                              else none)
        caches := cs
        networkRequests := [request] }

/-! ## Auxiliary notions used in the statements -/

/-- Number of firings among `nows` on which the callback really ran, the
timer being armed at that moment. -/
def processedTicks : List Nat → Page → Nat
  | [], _ => 0
  | now :: rest, p => (if p.intervalActive then 1 else 0) + processedTicks rest (tick now p)

/-- Shape of the countdown during a run: within the phase duration, and,
while the timer is armed, either a fresh phase (`5.5`, no tick consumed) or
a whole number of seconds from `1` to `5`. -/
def Running (p : Page) : Prop :=
  p.state.count ≤ 1 ∧ 0 ≤ p.state.countdown ∧ p.state.countdown ≤ PHASE_DURATION ∧
  (p.intervalActive = true →
    (p.state.halfTickDone = false ∧ p.state.countdown = PHASE_DURATION) ∨
    (p.state.halfTickDone = true ∧ 2 ≤ p.state.countdown ∧ p.state.countdown ≤ 10 ∧
      p.state.countdown % 2 = 0))

/-- Position of a run that has processed `n` ticks and has not yet reached
its time limit: six ticks per phase, Inhale first, the countdown `5.5` at a
phase start and `5, 4, 3, 2, 1` after the following ticks. -/
def OnSchedule (limit : String) (n : Nat) (p : Page) : Prop :=
  p.intervalActive = true ∧ p.halfTickCounter = n ∧ p.state.totalTime = n / 2 ∧
  p.state.count = (n / 6) % 2 ∧
  p.state.halfTickDone = decide (n % 6 ≠ 0) ∧
  p.state.countdown = (if n % 6 = 0 then PHASE_DURATION else 12 - 2 * ((n % 6 : Nat) : Int)) ∧
  p.state.timeLimitReached = false ∧ p.state.sessionComplete = false ∧
  p.state.isPlaying = true ∧ p.state.timeLimit = limit


/-- Position of a run whose timer is still armed after `n` ticks: six ticks
per phase with Inhale first, so the phase is `(n / 6) % 2`, and the countdown
is `5.5` at a phase start and `5, 4, 3, 2, 1` after the following ticks. -/
def AtTick (n : Nat) (p : Page) : Prop :=
  p.intervalActive = true ∧ p.halfTickCounter = n ∧
  p.state.count = (n / 6) % 2 ∧
  p.state.halfTickDone = decide (n % 6 ≠ 0) ∧
  p.state.countdown = (if n % 6 = 0 then PHASE_DURATION else 12 - 2 * ((n % 6 : Nat) : Int)) ∧
  p.state.sessionComplete = false ∧ p.state.isPlaying = true

/-- A run that the callback has ended: timer cleared at the end of an Exhale. -/
def Finished (p : Page) : Prop :=
  p.intervalActive = false ∧ p.state.count = 1 ∧ p.state.countdown = 0 ∧
  p.state.sessionComplete = true ∧ p.state.isPlaying = false

/-! ## Supporting lemmas -/

/-- The time-limit check writes `timeLimitReached` only. -/
theorem checkTimeLimit_fields (s : State) :
    (checkTimeLimit s).count = s.count ∧ (checkTimeLimit s).countdown = s.countdown ∧
    (checkTimeLimit s).halfTickDone = s.halfTickDone ∧
    (checkTimeLimit s).totalTime = s.totalTime ∧
    (checkTimeLimit s).isPlaying = s.isPlaying ∧
    (checkTimeLimit s).sessionComplete = s.sessionComplete ∧
    (checkTimeLimit s).timeLimit = s.timeLimit := by
  unfold checkTimeLimit
  split
  · split
    · split <;> simp
    · simp
  · simp

/-- Fields of the state when the callback reaches the phase test. -/
theorem beforePhaseCheck_fields (p : Page) :
    (beforePhaseCheck p).count = p.state.count ∧
    (beforePhaseCheck p).countdown
      = (if p.state.halfTickDone = false then 10 else p.state.countdown - 2) ∧
    (beforePhaseCheck p).halfTickDone = true ∧
    (beforePhaseCheck p).totalTime
      = p.state.totalTime + (if (p.halfTickCounter + 1) % 2 = 0 then 1 else 0) ∧
    (beforePhaseCheck p).isPlaying = p.state.isPlaying ∧
    (beforePhaseCheck p).sessionComplete = p.state.sessionComplete ∧
    (beforePhaseCheck p).timeLimit = p.state.timeLimit := by
  unfold beforePhaseCheck
  obtain ⟨h1, h2, h3, h4, h5, h6, h7⟩ :=
    checkTimeLimit_fields (stepCountdown (bumpTotalTime (p.halfTickCounter + 1) p.state))
  rw [h1, h2, h3, h4, h5, h6, h7]
  unfold stepCountdown bumpTotalTime
  cases hd : p.state.halfTickDone <;> by_cases he : (p.halfTickCounter + 1) % 2 = 0 <;>
    simp [hd, he]

/-- With a limit of `m` minutes not yet reached, the check sets the flag exactly when `totalTime` is at least `60 * m`. -/
theorem checkTimeLimit_reached (s : State) (m : Nat) (hset : s.timeLimit ≠ "")
    (hparse : parseInt s.timeLimit = some (m : Int)) (hr : s.timeLimitReached = false) :
    (checkTimeLimit s).timeLimitReached = decide (60 * m ≤ s.totalTime) := by
  unfold checkTimeLimit
  have hcond : s.timeLimit ≠ "" ∧ (!s.timeLimitReached) = true := ⟨hset, by simp [hr]⟩
  rw [if_pos hcond, hparse]
  simp only
  by_cases h : 60 * m ≤ s.totalTime
  · have hi : (s.totalTime : Int) ≥ (m : Int) * 60 := by omega
    rw [if_pos hi]
    simp [h]
  · have hi : ¬ (s.totalTime : Int) ≥ (m : Int) * 60 := by omega
    rw [if_neg hi]
    simp [h, hr]

/-- The flag `timeLimitReached` at the phase test, for a limit of `m` minutes not yet reached. -/
theorem beforePhaseCheck_reached (p : Page) (m : Nat) (hset : p.state.timeLimit ≠ "")
    (hparse : parseInt p.state.timeLimit = some (m : Int))
    (hr : p.state.timeLimitReached = false) :
    (beforePhaseCheck p).timeLimitReached
      = decide (60 * m ≤ p.state.totalTime + (if (p.halfTickCounter + 1) % 2 = 0 then 1 else 0)) := by
  have key : ∀ s : State, s = stepCountdown (bumpTotalTime (p.halfTickCounter + 1) p.state) →
      s.timeLimit = p.state.timeLimit ∧ s.timeLimitReached = p.state.timeLimitReached ∧
      s.totalTime = p.state.totalTime + (if (p.halfTickCounter + 1) % 2 = 0 then 1 else 0) := by
    intro s hs
    subst hs
    unfold stepCountdown bumpTotalTime
    cases hd : p.state.halfTickDone <;> by_cases he : (p.halfTickCounter + 1) % 2 = 0 <;>
      simp [hd, he]
  obtain ⟨k1, k2, k3⟩ := key _ rfl
  unfold beforePhaseCheck
  rw [checkTimeLimit_reached _ m (k1 ▸ hset) (k1 ▸ hparse) (k2 ▸ hr), k3]

/-- The three exits of the callback: session finished, phase switched, or phase still running. -/
theorem intervalCallback_cases (now : Nat) (p : Page) :
    ((beforePhaseCheck p).countdown = 0 ∧ (beforePhaseCheck p).count = 1 ∧
      (beforePhaseCheck p).timeLimitReached = true ∧
      intervalCallback now p =
        { state := { beforePhaseCheck p with sessionComplete := true, isPlaying := false }
          intervalActive := false
          halfTickCounter := p.halfTickCounter + 1 }) ∨
    ((beforePhaseCheck p).countdown = 0 ∧
      ¬ ((beforePhaseCheck p).count = 1 ∧ (beforePhaseCheck p).timeLimitReached = true) ∧
      intervalCallback now p =
        { state := { beforePhaseCheck p with
                       count := ((beforePhaseCheck p).count + 1) % 2
                       countdown := PHASE_DURATION
                       halfTickDone := false
                       pulseStartTime := some now }
          intervalActive := p.intervalActive
          halfTickCounter := p.halfTickCounter + 1 }) ∨
    ((beforePhaseCheck p).countdown ≠ 0 ∧
      intervalCallback now p =
        { state := beforePhaseCheck p
          intervalActive := p.intervalActive
          halfTickCounter := p.halfTickCounter + 1 }) := by
  unfold intervalCallback
  simp only
  by_cases h0 : (beforePhaseCheck p).countdown = 0
  · by_cases h1 : (beforePhaseCheck p).count = 1 ∧ (beforePhaseCheck p).timeLimitReached = true
    · exact Or.inl ⟨h0, h1.1, h1.2, by rw [if_pos h0, if_pos h1]⟩
    · exact Or.inr (Or.inl ⟨h0, h1, by rw [if_pos h0, if_neg h1]⟩)
  · exact Or.inr (Or.inr ⟨h0, by rw [if_neg h0]⟩)

/-- With the timer cleared, firings change nothing. -/
theorem runTicks_inactive (nows : List Nat) (p : Page) (h : p.intervalActive = false) :
    runTicks nows p = p := by
  induction nows with
  | nil => rfl
  | cons now rest ih =>
    have : tick now p = p := by simp [tick, h]
    simp only [runTicks, List.foldl_cons, this]
    exact ih

/-- Running two sequences of firings one after the other. -/
theorem runTicks_append (xs ys : List Nat) (p : Page) :
    runTicks (xs ++ ys) p = runTicks ys (runTicks xs p) := by
  simp [runTicks, List.foldl_append]

/-- With the timer cleared, no firing is processed. -/
theorem processedTicks_inactive (nows : List Nat) (p : Page) (h : p.intervalActive = false) :
    processedTicks nows p = 0 := by
  induction nows with
  | nil => rfl
  | cons now rest ih =>
    have : tick now p = p := by simp [tick, h]
    simp only [processedTicks, this, h, ih]
    simp

/-- Effect of one processed tick on `totalTime` and `halfTickCounter`. -/
theorem tick_totalTime (now : Nat) (p : Page) (ha : p.intervalActive = true) :
    (tick now p).state.totalTime
      = p.state.totalTime + (if (p.halfTickCounter + 1) % 2 = 0 then 1 else 0) ∧
    (tick now p).halfTickCounter = p.halfTickCounter + 1 := by
  unfold tick
  rw [if_pos ha]
  have b4 := (beforePhaseCheck_fields p).2.2.2.1
  unfold intervalCallback
  simp only
  refine ⟨?_, ?_⟩
  · rw [← b4]; split_ifs <;> rfl
  · split_ifs <;> rfl

/-- While `totalTime` is half of `halfTickCounter`, it stays so, and the counter counts the processed ticks. -/
theorem runTicks_totalTime (nows : List Nat) (p : Page)
    (h : p.state.totalTime = p.halfTickCounter / 2) :
    (runTicks nows p).state.totalTime = (p.halfTickCounter + processedTicks nows p) / 2 ∧
    (runTicks nows p).halfTickCounter = p.halfTickCounter + processedTicks nows p ∧
    ((runTicks nows p).intervalActive = true → processedTicks nows p = nows.length) := by
  induction nows generalizing p with
  | nil => exact ⟨h, rfl, fun _ => rfl⟩
  | cons now rest ih =>
    by_cases ha : p.intervalActive = true
    · obtain ⟨t1, t2⟩ := tick_totalTime now p ha
      have hstep : (tick now p).state.totalTime = (tick now p).halfTickCounter / 2 := by
        rw [t1, t2, h]
        split_ifs <;> omega
      obtain ⟨i1, i2, i3⟩ := ih (tick now p) hstep
      have hrun : runTicks (now :: rest) p = runTicks rest (tick now p) := rfl
      have hproc : processedTicks (now :: rest) p = 1 + processedTicks rest (tick now p) := by
        simp [processedTicks, ha]
      rw [hrun, hproc, i1, i2, t2]
      refine ⟨by congr 1; omega, by omega, fun hact => ?_⟩
      rw [i3 hact, List.length_cons]
      omega
    · have hf : p.intervalActive = false := by simpa using ha
      rw [runTicks_inactive _ _ hf, processedTicks_inactive _ _ hf]
      exact ⟨h, rfl, fun hact => absurd hact ha⟩

/-- The page right after `togglePlay` started a run. -/
theorem running_togglePlay (p : Page) (hstop : p.state.isPlaying = false) :
    Running (togglePlay p) ∧ (togglePlay p).state.count = 0 ∧
    (togglePlay p).state.totalTime = 0 ∧ (togglePlay p).halfTickCounter = 0 ∧
    (togglePlay p).intervalActive = true := by
  simp [togglePlay, hstop, startInterval, Running, PHASE_DURATION]

/-- One firing keeps the shape `Running`. -/
theorem running_tick (now : Nat) (p : Page) (h : Running p) : Running (tick now p) := by
  unfold tick
  by_cases ha : p.intervalActive = true
  · rw [if_pos ha]
    obtain ⟨hc, h0, h11, hshape⟩ := h
    obtain ⟨b1, b2, b3, -, -, -, -⟩ := beforePhaseCheck_fields p
    have hshape := hshape ha
    unfold intervalCallback
    simp only
    unfold Running
    unfold PHASE_DURATION at *
    split_ifs with hz hfin
    · simp only [b1, hz]
      refine ⟨hc, le_refl _, by omega, fun h => by simp at h⟩
    · simp only
      refine ⟨by omega, by omega, le_refl _, fun _ => Or.inl ⟨by trivial, by trivial⟩⟩
    · rw [b1, b2, b3]
      rw [b2] at hz
      rcases hshape with ⟨hd, hcd⟩ | ⟨hd, hlo, hhi, hev⟩
      · simp only [hd, if_true]
        refine ⟨hc, by omega, by omega, fun _ => Or.inr ⟨by trivial, by omega, by omega, by omega⟩⟩
      · simp only [hd] at hz ⊢
        simp only [Bool.true_eq_false, if_false] at hz ⊢
        refine ⟨hc, by omega, by omega, fun _ => Or.inr ⟨by trivial, by omega, by omega, by omega⟩⟩
  · rw [if_neg ha]
    exact h

/-- Any sequence of firings keeps the shape `Running`. -/
theorem running_runTicks (nows : List Nat) (p : Page) (h : Running p) :
    Running (runTicks nows p) := by
  induction nows generalizing p with
  | nil => exact h
  | cons now rest ih => exact ih (tick now p) (running_tick now p h)

/-- One firing leaves `count` alone or replaces it by `(count + 1) % 2`. -/
theorem tick_count (now : Nat) (p : Page) :
    (tick now p).state.count = p.state.count ∨
    (tick now p).state.count = (p.state.count + 1) % 2 := by
  unfold tick
  by_cases ha : p.intervalActive = true
  · rw [if_pos ha]
    have b1 := (beforePhaseCheck_fields p).1
    unfold intervalCallback
    simp only
    split_ifs
    · exact Or.inl b1
    · right; simp only [b1]
    · exact Or.inl b1
  · rw [if_neg ha]; exact Or.inl rfl

/-- A run starts on schedule, at position `0`. -/
theorem onSchedule_togglePlay (p : Page) (hstop : p.state.isPlaying = false) :
    OnSchedule p.state.timeLimit 0 (togglePlay p) := by
  simp [togglePlay, hstop, startInterval, OnSchedule]

/-- The state at the phase test, at position `n` of the schedule. -/
theorem onSchedule_before (limit : String) (m n : Nat) (p : Page)
    (hset : limit ≠ "") (hparse : parseInt limit = some (m : Int))
    (h : OnSchedule limit n p) :
    (beforePhaseCheck p).count = (n / 6) % 2 ∧
    (beforePhaseCheck p).countdown = 10 - 2 * ((n % 6 : Nat) : Int) ∧
    (beforePhaseCheck p).halfTickDone = true ∧
    (beforePhaseCheck p).totalTime = (n + 1) / 2 ∧
    (beforePhaseCheck p).isPlaying = true ∧
    (beforePhaseCheck p).sessionComplete = false ∧
    (beforePhaseCheck p).timeLimit = limit ∧
    (beforePhaseCheck p).timeLimitReached = decide (60 * m ≤ (n + 1) / 2) := by
  obtain ⟨ha, hh, ht, hc, hd, hcd, hr, hs, hp, hl⟩ := h
  obtain ⟨b1, b2, b3, b4, b5, b6, b7⟩ := beforePhaseCheck_fields p
  have b8 := beforePhaseCheck_reached p m (hl ▸ hset) (hl ▸ hparse) hr
  have htot : p.state.totalTime + (if (p.halfTickCounter + 1) % 2 = 0 then 1 else 0)
      = (n + 1) / 2 := by
    rw [ht, hh]
    split_ifs <;> omega
  rw [htot] at b4 b8
  refine ⟨by rw [b1, hc], ?_, b3, b4, by rw [b5, hp], by rw [b6, hs], by rw [b7, hl], b8⟩
  rw [b2, hd, hcd]
  unfold PHASE_DURATION
  by_cases h0 : n % 6 = 0
  · simp [h0]
  · simp [h0]
    omega

/-- Before the limit the schedule advances by one position per tick. -/
theorem onSchedule_tick (limit : String) (m n now : Nat) (p : Page)
    (hset : limit ≠ "") (hparse : parseInt limit = some (m : Int))
    (h : OnSchedule limit n p) (hlt : n + 1 < 120 * m) :
    OnSchedule limit (n + 1) (tick now p) := by
  obtain ⟨c1, c2, c3, c4, c5, c6, c7, c8⟩ := onSchedule_before limit m n p hset hparse h
  obtain ⟨ha, hh, -, -, -, -, -, -, -, -⟩ := h
  have hnr : (beforePhaseCheck p).timeLimitReached = false := by
    rw [c8]
    have : ¬ 60 * m ≤ (n + 1) / 2 := by omega
    simp [this]
  have hmod : n % 6 < 6 := Nat.mod_lt _ (by decide)
  unfold tick
  rw [if_pos ha]
  unfold OnSchedule
  rcases intervalCallback_cases now p with ⟨_, _, h3, _⟩ | ⟨h0, _, heq⟩ | ⟨h0, heq⟩
  · rw [hnr] at h3; cases h3
  · rw [heq]
    simp only
    rw [c2] at h0
    have h5 : n % 6 = 5 := by omega
    have h6 : (n + 1) % 6 = 0 := by omega
    refine ⟨ha, by rw [hh], c4, by rw [c1]; omega, by simp [h6], by simp [h6], hnr, c6, c5, c7⟩
  · rw [heq]
    simp only
    rw [c2] at h0
    have h5 : n % 6 ≠ 5 := by omega
    have h6 : (n + 1) % 6 ≠ 0 := by omega
    refine ⟨ha, by rw [hh], c4, by rw [c1]; omega, by simp [h6, c3], ?_, hnr, c6, c5, c7⟩
    rw [c2, if_neg h6]
    omega

/-- The tick that brings `totalTime` to the limit finishes the session. -/
theorem onSchedule_finish (limit : String) (m n now : Nat) (p : Page)
    (hset : limit ≠ "") (hparse : parseInt limit = some (m : Int))
    (h : OnSchedule limit n p) (hlast : n + 1 = 120 * m) :
    (tick now p).intervalActive = false ∧
    (tick now p).state.totalTime = 60 * m ∧
    (tick now p).state.timeLimitReached = true ∧
    (tick now p).state.sessionComplete = true ∧
    (tick now p).state.count = 1 ∧
    (tick now p).state.countdown = 0 ∧
    (tick now p).state.isPlaying = false := by
  obtain ⟨c1, c2, c3, c4, c5, c6, c7, c8⟩ := onSchedule_before limit m n p hset hparse h
  obtain ⟨ha, hh, -, -, -, -, -, -, -, -⟩ := h
  have hr : (beforePhaseCheck p).timeLimitReached = true := by
    rw [c8]
    have : 60 * m ≤ (n + 1) / 2 := by omega
    simp [this]
  have hcount : (beforePhaseCheck p).count = 1 := by rw [c1]; omega
  have hcd : (beforePhaseCheck p).countdown = 0 := by rw [c2]; omega
  unfold tick
  rw [if_pos ha]
  rcases intervalCallback_cases now p with ⟨_, _, _, heq⟩ | ⟨_, hn, _⟩ | ⟨h0, _⟩
  · rw [heq]
    simp only
    exact ⟨trivial, by rw [c4]; omega, hr, trivial, hcount, hcd, trivial⟩
  · exact absurd ⟨hcount, hr⟩ hn
  · exact absurd hcd h0

/-- The run follows the schedule up to tick `120 * m` and finishes on it. -/
theorem onSchedule_runTicks (p : Page) (m : Nat) (nows : List Nat)
    (hstop : p.state.isPlaying = false) (hset : p.state.timeLimit ≠ "")
    (hparse : parseInt p.state.timeLimit = some (m : Int)) (hm : 0 < m) :
    (nows.length < 120 * m →
      OnSchedule p.state.timeLimit nows.length (runTicks nows (togglePlay p))) ∧
    (nows.length = 120 * m →
      (runTicks nows (togglePlay p)).intervalActive = false ∧
      (runTicks nows (togglePlay p)).state.totalTime = 60 * m ∧
      (runTicks nows (togglePlay p)).state.timeLimitReached = true ∧
      (runTicks nows (togglePlay p)).state.sessionComplete = true ∧
      (runTicks nows (togglePlay p)).state.count = 1 ∧
      (runTicks nows (togglePlay p)).state.countdown = 0 ∧
      (runTicks nows (togglePlay p)).state.isPlaying = false) := by
  induction nows using List.reverseRecOn with
  | nil =>
    refine ⟨fun _ => onSchedule_togglePlay p hstop, fun h => ?_⟩
    simp only [List.length_nil] at h
    omega
  | append_singleton xs x ih =>
    have hlen : (xs ++ [x]).length = xs.length + 1 := by simp
    have hrun : runTicks (xs ++ [x]) (togglePlay p) = tick x (runTicks xs (togglePlay p)) := by
      rw [runTicks_append]; rfl
    rw [hlen, hrun]
    constructor
    · intro hlt
      exact onSchedule_tick _ m _ x _ hset hparse (ih.1 (by omega)) hlt
    · intro heq
      exact onSchedule_finish _ m _ x _ hset hparse (ih.1 (by omega)) heq


/-- A run starts at position `0`. -/
theorem atTick_togglePlay (p : Page) (hstop : p.state.isPlaying = false) :
    AtTick 0 (togglePlay p) := by
  simp [togglePlay, hstop, startInterval, AtTick]

/-- One tick at position `n`: the countdown at the phase test is
`5 - n % 6` seconds; while it is not `0` the phase is kept; when it is `0`
the session ends if the phase is Exhale with the limit reached, and
otherwise the phase is switched and the countdown starts again. -/
theorem atTick_tick (n now : Nat) (p : Page) (h : AtTick n p) :
    (beforePhaseCheck p).countdown = 10 - 2 * ((n % 6 : Nat) : Int) ∧
    ((n + 1) % 6 ≠ 0 →
      AtTick (n + 1) (tick now p) ∧ (tick now p).state.count = p.state.count) ∧
    ((n + 1) % 6 = 0 →
      ¬ (p.state.count = 1 ∧ (beforePhaseCheck p).timeLimitReached = true) →
      AtTick (n + 1) (tick now p) ∧ (tick now p).state.count = 1 - p.state.count ∧
      (tick now p).state.countdown = PHASE_DURATION) ∧
    ((n + 1) % 6 = 0 →
      (p.state.count = 1 ∧ (beforePhaseCheck p).timeLimitReached = true) →
      Finished (tick now p)) := by
  obtain ⟨ha, hh, hc, hd, hcd, hs, hp⟩ := h
  obtain ⟨b1, b2, b3, -, b5, b6, -⟩ := beforePhaseCheck_fields p
  have hmod : n % 6 < 6 := Nat.mod_lt _ (by decide)
  have c2 : (beforePhaseCheck p).countdown = 10 - 2 * ((n % 6 : Nat) : Int) := by
    rw [b2, hd, hcd]
    unfold PHASE_DURATION
    by_cases h0 : n % 6 = 0
    · simp [h0]
    · simp [h0]
      omega
  have htick : tick now p = intervalCallback now p := by
    unfold tick
    rw [if_pos ha]
  rw [htick]
  refine ⟨c2, fun hne => ?_, fun heq hnot => ?_, fun heq hfin => ?_⟩
  · rcases intervalCallback_cases now p with ⟨h0, _, _, _⟩ | ⟨h0, _, _⟩ | ⟨h0, heq⟩
    · rw [c2] at h0; omega
    · rw [c2] at h0; omega
    · rw [heq]
      unfold AtTick
      simp only
      refine ⟨⟨ha, by rw [hh], by rw [b1, hc]; omega, by simp [hne, b3], ?_, by rw [b6, hs],
        by rw [b5, hp]⟩, b1⟩
      rw [c2, if_neg hne]
      omega
  · have hnot2 : ¬ ((beforePhaseCheck p).count = 1 ∧
        (beforePhaseCheck p).timeLimitReached = true) := by
      rw [b1]; exact hnot
    rcases intervalCallback_cases now p with ⟨_, h1, h2, _⟩ | ⟨_, _, heq2⟩ | ⟨h0, _⟩
    · exact absurd ⟨h1, h2⟩ hnot2
    · rw [heq2]
      unfold AtTick
      simp only
      have hle : p.state.count ≤ 1 := by rw [hc]; omega
      refine ⟨⟨ha, by rw [hh], by rw [b1, hc]; omega, by simp [heq], by simp [heq],
        by rw [b6, hs], by rw [b5, hp]⟩, by rw [b1]; omega, trivial⟩
    · rw [c2] at h0; omega
  · have hfin2 : (beforePhaseCheck p).count = 1 ∧
        (beforePhaseCheck p).timeLimitReached = true := by
      rw [b1]; exact hfin
    rcases intervalCallback_cases now p with ⟨h0, h1, _, heq2⟩ | ⟨_, hn, _⟩ | ⟨h0, _⟩
    · rw [heq2]
      unfold Finished
      simp only
      exact ⟨trivial, h1, h0, trivial, trivial⟩
    · exact absurd hfin2 hn
    · rw [c2] at h0; omega

/-- A finished run is not touched by later firings. -/
theorem finished_tick (now : Nat) (p : Page) (h : Finished p) : tick now p = p := by
  unfold tick
  simp [h.1]

/-- After any sequence of firings a started run is at the position given by
their number, or has been finished by the callback. -/
theorem atTick_runTicks (p : Page) (hstop : p.state.isPlaying = false) (nows : List Nat) :
    AtTick nows.length (runTicks nows (togglePlay p)) ∨
    Finished (runTicks nows (togglePlay p)) := by
  induction nows using List.reverseRecOn with
  | nil => exact Or.inl (atTick_togglePlay p hstop)
  | append_singleton xs x ih =>
    have hlen : (xs ++ [x]).length = xs.length + 1 := by simp
    have hrun : runTicks (xs ++ [x]) (togglePlay p) = tick x (runTicks xs (togglePlay p)) := by
      rw [runTicks_append]; rfl
    rw [hlen, hrun]
    rcases ih with hat | hfin
    · obtain ⟨-, s1, s2, s3⟩ := atTick_tick xs.length x _ hat
      by_cases hm : (xs.length + 1) % 6 = 0
      · by_cases hf : (runTicks xs (togglePlay p)).state.count = 1 ∧
            (beforePhaseCheck (runTicks xs (togglePlay p))).timeLimitReached = true
        · exact Or.inr (s3 hm hf)
        · exact Or.inl (s2 hm hf).1
      · exact Or.inl (s1 hm).1
    · rw [finished_tick x _ hfin]
      exact Or.inr hfin

/-- Replacing a class by the empty string filters the class out. -/
theorem replaceClass_empty_data (cls : Char → Bool) (s : String) :
    (replaceClass cls "" s).data = s.data.filter fun c => !cls c := by
  unfold replaceClass
  simp only
  induction s.data with
  | nil => rfl
  | cons c cs ih =>
    by_cases h : cls c = true
    · simp [List.flatMap_cons, h, ih]
    · simp [List.flatMap_cons, h, ih]


/-- An accepted request matches the entry stored for it. -/
theorem requestMatches_self (request : Request) (r : Response)
    (h : putAccepted request r = true) : requestMatches request (request, r) = true := by
  unfold putAccepted at h
  simp only [Bool.and_eq_true, Bool.not_eq_true', bne_iff_ne, beq_iff_eq] at h
  obtain ⟨⟨-, -⟩, hv⟩ := h
  unfold requestMatches
  simp only [Bool.and_eq_true, beq_self_eq_true, true_and, List.all_eq_true, bne_iff_ne,
    and_true]
  intro field hf hstar
  rw [hstar] at hf
  have : r.vary.contains "*" = true := by simpa using hf
  rw [hv] at this
  cases this

/-- A lookup right after an accepted `put` finds the response just stored. -/
theorem cacheMatch_cachePut (c c2 : Cache) (request : Request) (r : Response)
    (h : cachePut c request r = some c2) : cacheMatch c2 request = some r := by
  unfold cachePut at h
  by_cases hacc : putAccepted request r = true
  · rw [if_pos hacc] at h
    cases h
    have hget : request.method = "GET" := by
      unfold putAccepted at hacc
      simp only [Bool.and_eq_true, beq_iff_eq] at hacc
      exact hacc.1.1
    unfold cacheMatch
    rw [if_pos hget]
    have hnone : List.find? (requestMatches request)
        (c.filter fun e => !requestMatches request e) = none := by
      rw [List.find?_eq_none]
      intro e he
      have := (List.mem_filter.mp he).2
      simpa using this
    rw [List.find?_append, hnone]
    simp [List.find?, requestMatches_self request r hacc]
  · rw [if_neg hacc] at h
    cases h

/-- A miss in the whole storage is a miss in its first cache and in the rest. -/
theorem cachesMatch_cons_none (n : String) (c : Cache) (rest : CacheStorage)
    (request : Request) (hmiss : cachesMatch ((n, c) :: rest) request = none) :
    cacheMatch c request = none ∧ cachesMatch rest request = none := by
  cases h : cacheMatch c request with
  | none => exact ⟨rfl, by simpa [cachesMatch, h] using hmiss⟩
  | some v => simp [cachesMatch, h] at hmiss

/-- After a miss everywhere, an accepted `put` in one cache makes the storage
answer with the stored response. -/
theorem cachesMatch_cachesOpenPut (cs : CacheStorage) (name : String) (request : Request)
    (r : Response) (hacc : putAccepted request r = true)
    (hmiss : cachesMatch cs request = none) :
    cachesMatch (cachesOpenPut cs name request r) request = some r := by
  have hput : ∀ c : Cache, cacheMatch ((cachePut c request r).getD c) request = some r := by
    intro c
    have : cachePut c request r
        = some ((c.filter fun e => !requestMatches request e) ++ [(request, r)]) := by
      unfold cachePut
      rw [if_pos hacc]
    rw [this]
    exact cacheMatch_cachePut c _ request r this
  induction cs with
  | nil => simp [cachesOpenPut, cachesMatch, hput]
  | cons head rest ih =>
    obtain ⟨n, c⟩ := head
    obtain ⟨hc, hrest⟩ := cachesMatch_cons_none n c rest request hmiss
    unfold cachesOpenPut
    by_cases hn : (n == name) = true
    · simp [hn, cachesMatch, hput]
    · simp [hn, cachesMatch, hc, ih hrest]

/-- The cache of the given name after the chain `cachesOpenPut`. -/
theorem cacheNamed_cachesOpenPut (cs : CacheStorage) (name : String) (request : Request)
    (r : Response) :
    cacheNamed (cachesOpenPut cs name request r) name
      = (cachePut (cacheNamed cs name) request r).getD (cacheNamed cs name) := by
  induction cs with
  | nil => simp [cachesOpenPut, cacheNamed]
  | cons head rest ih =>
    obtain ⟨n, c⟩ := head
    unfold cachesOpenPut
    by_cases hn : (n == name) = true
    · simp [hn, cacheNamed]
    · have ih2 := ih
      simp only [cacheNamed] at ih2 ⊢
      simp [hn, ih2]

/-- After a miss everywhere, the cache of any name misses too. -/
theorem cacheNamed_miss (cs : CacheStorage) (name : String) (request : Request)
    (hmiss : cachesMatch cs request = none) :
    cacheMatch (cacheNamed cs name) request = none := by
  induction cs with
  | nil => simp [cacheNamed, cacheMatch]
  | cons head rest ih =>
    obtain ⟨n, c⟩ := head
    obtain ⟨hc, hrest⟩ := cachesMatch_cons_none n c rest request hmiss
    by_cases hn : (n == name) = true
    · simp [cacheNamed, hn, hc]
    · have ih2 := ih hrest
      simp only [cacheNamed] at ih2 ⊢
      simp [hn, ih2]

/-- A rejected `put` leaves every cache of the storage with its entries. -/
theorem cacheNamed_cachesOpenPut_rejected (cs : CacheStorage) (name other : String)
    (request : Request) (r : Response) (hrej : putAccepted request r = false) :
    cacheNamed (cachesOpenPut cs name request r) other = cacheNamed cs other := by
  have hput : ∀ c : Cache, (cachePut c request r).getD c = c := by
    intro c
    unfold cachePut
    simp [hrej]
  induction cs with
  | nil =>
    simp only [cachesOpenPut, hput, cacheNamed]
    by_cases hn : (name == other) = true
    · simp [hn]
    · simp [hn]
  | cons head rest ih =>
    obtain ⟨n, c⟩ := head
    unfold cachesOpenPut
    by_cases hn : (n == name) = true
    · simp only [hn, if_true, hput]
    · simp only [hn]
      simp only [cacheNamed] at ih ⊢
      by_cases ho : (n == other) = true
      · simp [ho]
      · simp [ho, ih]

/-! ## The session controller: checked properties -/

/-- Claim C1, evaluated on the code.  After `togglePlay` starts a session the
first tick brings the countdown to `5`; the phase is still Inhale after tick 5
but is Exhale, with the countdown back at `5.5`, after tick 6, because every
500 ms tick after the first takes a whole second off the countdown.  After
tick 10 the phase is Exhale, and tick 11 leaves the countdown at `1` in the
middle of that Exhale phase: no phase change happens at tick 11. -/
theorem phase_flips_after_six_ticks :
    (runTicks [500] (togglePlay initialPage)).state.countdown = 10 ∧
    (runTicks [500, 1000, 1500, 2000, 2500] (togglePlay initialPage)).state.count = 0 ∧
    (runTicks [500, 1000, 1500, 2000, 2500, 3000] (togglePlay initialPage)).state.count = 1 ∧
    (runTicks [500, 1000, 1500, 2000, 2500, 3000] (togglePlay initialPage)).state.countdown
      = PHASE_DURATION ∧
    (runTicks [500, 1000, 1500, 2000, 2500, 3000, 3500, 4000, 4500, 5000]
      (togglePlay initialPage)).state.count = 1 ∧
    (runTicks [500, 1000, 1500, 2000, 2500, 3000, 3500, 4000, 4500, 5000, 5500]
      (togglePlay initialPage)).state.count = 1 ∧
    (runTicks [500, 1000, 1500, 2000, 2500, 3000, 3500, 4000, 4500, 5000, 5500]
      (togglePlay initialPage)).state.countdown = 2 := by
  decide

/-- Claim C2.  For every page and every run of the interval callback: the run
turns `sessionComplete` from false to true exactly when, on that run, the
countdown reaches `0`, the phase is Exhale (`count = 1`) and
`timeLimitReached` holds after the time-limit check.  In that case
`isPlaying` becomes false, the phase is not switched and the timer is
cleared.  When the phase is not Exhale the run leaves `sessionComplete` as it
was, so no session ends on an Inhale. -/
theorem sessionComplete_iff_exhale_done_and_limit_reached (now : Nat) (p : Page) :
    ((p.state.sessionComplete = false ∧ (intervalCallback now p).state.sessionComplete = true) ↔
      (p.state.sessionComplete = false ∧ (beforePhaseCheck p).countdown = 0 ∧
        p.state.count = 1 ∧ (beforePhaseCheck p).timeLimitReached = true)) ∧
    (((beforePhaseCheck p).countdown = 0 ∧ p.state.count = 1 ∧
        (beforePhaseCheck p).timeLimitReached = true) →
      (intervalCallback now p).state.sessionComplete = true ∧
      (intervalCallback now p).state.isPlaying = false ∧
      (intervalCallback now p).state.count = p.state.count ∧
      (intervalCallback now p).intervalActive = false) ∧
    (p.state.count ≠ 1 →
      (intervalCallback now p).state.sessionComplete = p.state.sessionComplete) := by
  obtain ⟨hc, -, -, -, -, hs, -⟩ := beforePhaseCheck_fields p
  rcases intervalCallback_cases now p with ⟨h0, h1, h2, heq⟩ | ⟨h0, hn, heq⟩ | ⟨h0, heq⟩
  · rw [heq]
    have hc1 : p.state.count = 1 := by rw [← hc]; exact h1
    refine ⟨⟨fun h => ⟨h.1, h0, hc1, h2⟩, fun h => ⟨h.1, rfl⟩⟩,
      fun _ => ⟨rfl, rfl, by rw [hc1]; exact h1, rfl⟩, fun hne => absurd hc1 hne⟩
  · rw [heq]
    have hfalse : ¬ ((beforePhaseCheck p).countdown = 0 ∧ p.state.count = 1 ∧
        (beforePhaseCheck p).timeLimitReached = true) :=
      fun h => hn ⟨by rw [hc]; exact h.2.1, h.2.2⟩
    refine ⟨⟨fun h => ?_, fun h => absurd h.2 hfalse⟩, fun h => absurd h hfalse, fun _ => hs⟩
    have h2 : (beforePhaseCheck p).sessionComplete = true := h.2
    rw [hs, h.1] at h2
    cases h2
  · rw [heq]
    refine ⟨⟨fun h => ?_, fun h => absurd h.2.1 h0⟩, fun h => absurd h.1 h0, fun _ => hs⟩
    have h2 : (beforePhaseCheck p).sessionComplete = true := h.2
    rw [hs, h.1] at h2
    cases h2

/-- Claim C2 at a concrete page: the last second of an Exhale phase with the
time limit already reached; the callback ends the session. -/
theorem sessionComplete_witness :
    (intervalCallback 6000
      { state := { initialState with
                     isPlaying := true, countdown := 2, count := 1, totalTime := 120
                     timeLimit := "2", timeLimitReached := true, halfTickDone := true }
        intervalActive := true
        halfTickCounter := 239 }).state.sessionComplete = true :=
  ((sessionComplete_iff_exhale_done_and_limit_reached 6000
      { state := { initialState with
                     isPlaying := true, countdown := 2, count := 1, totalTime := 120
                     timeLimit := "2", timeLimitReached := true, halfTickDone := true }
        intervalActive := true
        halfTickCounter := 239 }).2.1 (by decide)).1

/-- Claim C3.  For every page that is not playing, every sequence of ticks
after `togglePlay` has started a session (whatever the stored time limit) and
one further tick.  The session starts in Inhale (`count = 0`).  After the
sequence the countdown lies between `0` and the phase duration `5.5`, `count`
is `0` or `1`, and the further tick keeps the phase or flips it.  While the
timer is armed after `n` ticks the phase is `(n / 6) % 2`, Inhale and Exhale
in turn for six ticks each, and the countdown is `5.5` at a phase start and
`5, 4, 3, 2, 1` after the following ticks; the further tick keeps the phase
when it is not the sixth of its phase, and when it is the sixth the
completed phase is followed by the other phase with the countdown at `5.5`,
unless the completed phase is Exhale with the time limit reached, in which
case the session ends.  Once the timer is cleared the session is complete,
the last phase was Exhale, and further firings change nothing. -/
theorem countdown_bounded_and_phase_alternates (p : Page)
    (hstop : p.state.isPlaying = false) (nows : List Nat) (now : Nat) :
    (togglePlay p).state.count = 0 ∧
    0 ≤ (runTicks nows (togglePlay p)).state.countdown ∧
    (runTicks nows (togglePlay p)).state.countdown ≤ PHASE_DURATION ∧
    (runTicks nows (togglePlay p)).state.count ≤ 1 ∧
    ((tick now (runTicks nows (togglePlay p))).state.count
        = (runTicks nows (togglePlay p)).state.count ∨
      ((runTicks nows (togglePlay p)).state.count = 0 ∧
        (tick now (runTicks nows (togglePlay p))).state.count = 1) ∨
      ((runTicks nows (togglePlay p)).state.count = 1 ∧
        (tick now (runTicks nows (togglePlay p))).state.count = 0)) ∧
    ((runTicks nows (togglePlay p)).intervalActive = true →
      (runTicks nows (togglePlay p)).state.count = (nows.length / 6) % 2 ∧
      (runTicks nows (togglePlay p)).state.countdown
        = (if nows.length % 6 = 0 then PHASE_DURATION
           else 12 - 2 * ((nows.length % 6 : Nat) : Int)) ∧
      ((nows.length + 1) % 6 ≠ 0 →
        (tick now (runTicks nows (togglePlay p))).state.count
          = (runTicks nows (togglePlay p)).state.count ∧
        (tick now (runTicks nows (togglePlay p))).intervalActive = true) ∧
      ((nows.length + 1) % 6 = 0 →
        ¬ ((runTicks nows (togglePlay p)).state.count = 1 ∧
            (beforePhaseCheck (runTicks nows (togglePlay p))).timeLimitReached = true) →
        (tick now (runTicks nows (togglePlay p))).state.count
          = 1 - (runTicks nows (togglePlay p)).state.count ∧
        (tick now (runTicks nows (togglePlay p))).state.countdown = PHASE_DURATION ∧
        (tick now (runTicks nows (togglePlay p))).intervalActive = true) ∧
      ((nows.length + 1) % 6 = 0 →
        ((runTicks nows (togglePlay p)).state.count = 1 ∧
            (beforePhaseCheck (runTicks nows (togglePlay p))).timeLimitReached = true) →
        (tick now (runTicks nows (togglePlay p))).state.count = 1 ∧
        (tick now (runTicks nows (togglePlay p))).state.sessionComplete = true ∧
        (tick now (runTicks nows (togglePlay p))).intervalActive = false)) ∧
    ((runTicks nows (togglePlay p)).intervalActive = false →
      (runTicks nows (togglePlay p)).state.sessionComplete = true ∧
      (runTicks nows (togglePlay p)).state.count = 1 ∧
      (runTicks nows (togglePlay p)).state.countdown = 0 ∧
      tick now (runTicks nows (togglePlay p)) = runTicks nows (togglePlay p)) := by
  obtain ⟨hrun, hcount, -, -, -⟩ := running_togglePlay p hstop
  obtain ⟨hc, h0, h11, -⟩ := running_runTicks nows _ hrun
  refine ⟨hcount, h0, h11, hc, ?_, fun hact => ?_, fun hoff => ?_⟩
  · rcases tick_count now (runTicks nows (togglePlay p)) with h | h
    · exact Or.inl h
    · right
      rw [h]
      omega
  · rcases atTick_runTicks p hstop nows with hat | hfin
    · obtain ⟨-, s1, s2, s3⟩ := atTick_tick nows.length now _ hat
      obtain ⟨-, -, a3, -, a5, -, -⟩ := hat
      refine ⟨a3, a5, fun hne => ⟨(s1 hne).2, (s1 hne).1.1⟩,
        fun heq hnot => ⟨(s2 heq hnot).2.1, (s2 heq hnot).2.2, (s2 heq hnot).1.1⟩,
        fun heq hfin => ?_⟩
      obtain ⟨f1, f2, -, f4, -⟩ := s3 heq hfin
      exact ⟨f2, f4, f1⟩
    · rw [hfin.1] at hact
      cases hact
  · rcases atTick_runTicks p hstop nows with hat | hfin
    · rw [hat.1] at hoff
      cases hoff
    · exact ⟨hfin.2.2.2.1, hfin.2.1, hfin.2.2.1, finished_tick now _ hfin⟩

/-- Claim C3 at the initial page: six ticks into the session the timer is
still armed and the phase is Exhale. -/
theorem countdown_bounded_witness :
    (runTicks [500, 1000, 1500, 2000, 2500, 3000] (togglePlay initialPage)).state.count = 1 :=
  ((countdown_bounded_and_phase_alternates initialPage rfl
      [500, 1000, 1500, 2000, 2500, 3000] 3500).2.2.2.2.2.1 (by decide)).1

/-- Claim C4.  After `togglePlay` has started a session, `totalTime` is half
(rounded down) of the number of ticks processed since.  While the timer is
still armed every firing was processed, so after `n` firings `totalTime` is
`n / 2`, and the next tick adds `1` when it is an even-numbered tick and `0`
otherwise.  Pausing a playing page with `togglePlay` clears `isPlaying` and
the timer: later firings are not processed, change nothing, and `totalTime`
stays what it was. -/
theorem totalTime_half_of_processed_ticks (p q : Page) (nows later : List Nat) (now : Nat)
    (hstop : p.state.isPlaying = false) (hplay : q.state.isPlaying = true) :
    (runTicks nows (togglePlay p)).state.totalTime
      = processedTicks nows (togglePlay p) / 2 ∧
    ((runTicks nows (togglePlay p)).intervalActive = true →
      processedTicks nows (togglePlay p) = nows.length ∧
      (runTicks nows (togglePlay p)).state.totalTime = nows.length / 2 ∧
      (tick now (runTicks nows (togglePlay p))).state.totalTime
        = (runTicks nows (togglePlay p)).state.totalTime
          + (if (nows.length + 1) % 2 = 0 then 1 else 0)) ∧
    ((togglePlay q).state.isPlaying = false ∧
      processedTicks later (togglePlay q) = 0 ∧
      runTicks later (togglePlay q) = togglePlay q ∧
      (runTicks later (togglePlay q)).state.totalTime = q.state.totalTime) := by
  obtain ⟨-, -, ht, hh, -⟩ := running_togglePlay p hstop
  have hinit : (togglePlay p).state.totalTime = (togglePlay p).halfTickCounter / 2 := by
    rw [ht, hh]
  obtain ⟨r1, r2, r3⟩ := runTicks_totalTime nows (togglePlay p) hinit
  rw [hh, Nat.zero_add] at r1 r2
  have hpause : (togglePlay q).intervalActive = false := by
    simp [togglePlay, hplay]
  refine ⟨r1, fun hact => ?_, ?_, processedTicks_inactive _ _ hpause,
    runTicks_inactive _ _ hpause, ?_⟩
  · have hlen := r3 hact
    refine ⟨hlen, by rw [r1, hlen], ?_⟩
    rw [(tick_totalTime now _ hact).1, r2, hlen]
  · simp [togglePlay, hplay]
  · rw [runTicks_inactive _ _ hpause]
    simp [togglePlay, hplay]

/-- Claim C4 at the initial page: five ticks give two elapsed seconds. -/
theorem totalTime_witness :
    (runTicks [500, 1000, 1500, 2000, 2500] (togglePlay initialPage)).state.totalTime = 5 / 2 :=
  ((totalTime_half_of_processed_ticks initialPage (togglePlay initialPage) [500, 1000, 1500, 2000, 2500] [3000, 3500] 3000
      rfl rfl).2.1 (by decide)).2.1

/-- Claim C5.  Let a session be started with `togglePlay` on a page whose
stored time limit parses to `m > 0` minutes.  After fewer than `120 * m`
ticks `totalTime` is still below `60 * m`, and `timeLimitReached` and
`sessionComplete` are false.  Tick `120 * m` is the first to see
`totalTime = 60 * m`: on it `timeLimitReached` becomes true, and since that
tick is also the one on which an Exhale countdown reaches `0` (`count = 1`,
`countdown = 0`), `sessionComplete` becomes true on it and `isPlaying` false.
Later firings leave this state alone. -/
theorem time_limit_completes_on_exhale (p : Page) (m : Nat) (nows : List Nat)
    (hstop : p.state.isPlaying = false) (hset : p.state.timeLimit ≠ "")
    (hparse : parseInt p.state.timeLimit = some (m : Int)) (hm : 0 < m) :
    (nows.length < 120 * m →
      (runTicks nows (togglePlay p)).state.totalTime = nows.length / 2 ∧
      (runTicks nows (togglePlay p)).state.totalTime < 60 * m ∧
      (runTicks nows (togglePlay p)).state.timeLimitReached = false ∧
      (runTicks nows (togglePlay p)).state.sessionComplete = false ∧
      (runTicks nows (togglePlay p)).state.isPlaying = true) ∧
    (nows.length = 120 * m →
      (runTicks nows (togglePlay p)).state.totalTime = 60 * m ∧
      (runTicks nows (togglePlay p)).state.timeLimitReached = true ∧
      (runTicks nows (togglePlay p)).state.sessionComplete = true ∧
      (runTicks nows (togglePlay p)).state.count = 1 ∧
      (runTicks nows (togglePlay p)).state.countdown = 0 ∧
      (runTicks nows (togglePlay p)).state.isPlaying = false) ∧
    (120 * m ≤ nows.length →
      (runTicks nows (togglePlay p)).state.totalTime = 60 * m ∧
      (runTicks nows (togglePlay p)).state.timeLimitReached = true ∧
      (runTicks nows (togglePlay p)).state.sessionComplete = true ∧
      (runTicks nows (togglePlay p)).state.count = 1) := by
  refine ⟨fun hlt => ?_, fun heq => ?_, fun hge => ?_⟩
  · obtain ⟨-, -, ht, -, -, -, hr, hs, hp, -⟩ :=
      (onSchedule_runTicks p m nows hstop hset hparse hm).1 hlt
    exact ⟨ht, by rw [ht]; omega, hr, hs, hp⟩
  · obtain ⟨-, h2, h3, h4, h5, h6, h7⟩ :=
      (onSchedule_runTicks p m nows hstop hset hparse hm).2 heq
    exact ⟨h2, h3, h4, h5, h6, h7⟩
  · have hsplit : nows = nows.take (120 * m) ++ nows.drop (120 * m) :=
      (List.take_append_drop _ _).symm
    have hlen : (nows.take (120 * m)).length = 120 * m := by
      rw [List.length_take]; omega
    obtain ⟨h1, h2, h3, h4, h5, -, -⟩ :=
      (onSchedule_runTicks p m (nows.take (120 * m)) hstop hset hparse hm).2 hlen
    rw [hsplit, runTicks_append, runTicks_inactive _ _ h1]
    exact ⟨h2, h3, h4, h5⟩

/-- Claim C5 for the limit `"1"`: the session is complete after 120 ticks. -/
theorem time_limit_one_minute_witness :
    (runTicks (List.replicate 120 0)
      (togglePlay (handleTimeLimitChange "1" initialPage))).state.sessionComplete = true :=
  ((time_limit_completes_on_exhale (handleTimeLimitChange "1" initialPage) 1 (List.replicate 120 0)
      rfl (by decide) (by decide) (by decide)).2.1 (by decide)).2.2.1

/-- Claim C6 fails as stated.  Sound is switched on, a session runs for seven
ticks (one phase change, then the first tick of the Exhale phase) and
`resetToStart` is called: `soundEnabled` is still true, `pulseStartTime` still
holds the time of the phase change and `halfTickDone` is still true, so the
state is not the initial one. -/
theorem reset_keeps_sound_pulse_halfTick :
    (resetToStart (runTicks [500, 1000, 1500, 2000, 2500, 3000, 3500]
        (togglePlay (toggleSound initialPage)))).state.soundEnabled = true ∧
    (resetToStart (runTicks [500, 1000, 1500, 2000, 2500, 3000, 3500]
        (togglePlay (toggleSound initialPage)))).state.pulseStartTime = some 3000 ∧
    (resetToStart (runTicks [500, 1000, 1500, 2000, 2500, 3000, 3500]
        (togglePlay (toggleSound initialPage)))).state.halfTickDone = true ∧
    (resetToStart (runTicks [500, 1000, 1500, 2000, 2500, 3000, 3500]
        (togglePlay (toggleSound initialPage)))).state ≠ initialState := by
  decide

/-- Claim C6 as amended.  For every page, `resetToStart` sets `isPlaying`,
`countdown`, `count`, `totalTime`, `timeLimit`, `timeLimitReached` and
`sessionComplete` to their initial values and keeps `soundEnabled`,
`pulseStartTime` and `halfTickDone` as they were; the timer is cleared, and
later firings change nothing. -/
theorem resetToStart_restores_seven_fields (p : Page) (nows : List Nat) :
    (resetToStart p).state =
      { initialState with
          soundEnabled := p.state.soundEnabled
          pulseStartTime := p.state.pulseStartTime
          halfTickDone := p.state.halfTickDone } ∧
    (resetToStart p).intervalActive = false ∧
    runTicks nows (resetToStart p) = resetToStart p := by
  refine ⟨rfl, rfl, runTicks_inactive _ _ rfl⟩

/-- Claim C7.  For every input string, `handleTimeLimitChange` stores the
characters `0` to `9` of the input, in their order, and nothing else; every
stored character is a digit; entering the stored value again changes
nothing.  For `"12abc"` the stored value is `"12"`, `parseInt` reads it as
`12`, and the time-limit check of the tick handler sets `timeLimitReached`
exactly when `totalTime` has reached `720` seconds. -/
theorem handleTimeLimitChange_keeps_digits (value : String) (p : Page) (elapsed : Nat) :
    (handleTimeLimitChange value p).state.timeLimit.data
      = value.data.filter (fun c => decide ('0' ≤ c ∧ c ≤ '9')) ∧
    (∀ c ∈ (handleTimeLimitChange value p).state.timeLimit.data, '0' ≤ c ∧ c ≤ '9') ∧
    handleTimeLimitChange (handleTimeLimitChange value p).state.timeLimit
        (handleTimeLimitChange value p) = handleTimeLimitChange value p ∧
    (handleTimeLimitChange "12abc" p).state.timeLimit = "12" ∧
    parseInt (handleTimeLimitChange "12abc" p).state.timeLimit = some 12 ∧
    (checkTimeLimit { (handleTimeLimitChange "12abc" p).state with
        totalTime := elapsed, timeLimitReached := false }).timeLimitReached
      = decide (720 ≤ elapsed) := by
  have hdata : ∀ v : String, (replaceClass notDigit "" v).data
      = v.data.filter (fun c => decide ('0' ≤ c ∧ c ≤ '9')) := by
    intro v
    rw [replaceClass_empty_data]
    congr 1
    funext c
    simp [notDigit]
  have h12 : replaceClass notDigit "" "12abc" = "12" := by decide
  have hp : parseInt "12" = some 12 := by decide
  refine ⟨hdata value, ?_, ?_, h12, ?_, ?_⟩
  · intro c hc
    have : c ∈ value.data.filter (fun c => decide ('0' ≤ c ∧ c ≤ '9')) := by
      rw [← hdata value]; exact hc
    simpa using (List.mem_filter.mp this).2
  · have : replaceClass notDigit "" (replaceClass notDigit "" value)
        = replaceClass notDigit "" value := by
      apply String.ext
      rw [hdata, hdata, List.filter_filter]
      simp
    simp only [handleTimeLimitChange, this]
  · simp only [handleTimeLimitChange, h12, hp]
  · simp only [handleTimeLimitChange, h12, checkTimeLimit, hp]
    by_cases h : 720 ≤ elapsed
    · have : (elapsed : Int) ≥ 12 * 60 := by omega
      simp [h, this]
    · have : ¬ (elapsed : Int) ≥ 12 * 60 := by omega
      simp [h, this]

/-- Claim C8, evaluated on the code.  Right after `togglePlay` the page is
playing with the countdown at `5.5`, and `render` writes `5.5`, not `5`:
the special case of `render` tests for the value `5`, whose text is `5`
anyway.  For the whole values `5, 4, 3, 2, 1` the text is that whole
number. -/
theorem countdownText_shows_fraction :
    showsCountdown (togglePlay initialPage).state = true ∧
    (togglePlay initialPage).state.countdown = PHASE_DURATION ∧
    countdownText (togglePlay initialPage).state = "5.5" ∧
    (∀ c ∈ [10, 8, 6, 4, 2],
      countdownText { (togglePlay initialPage).state with countdown := c }
        = toString (c / 2)) := by
  decide

/-! ## The fetch handler: checked properties -/

/-- Claim C9 fails as stated.  A request for a script that is not a
navigation misses the empty cache and the network fails: the handler's
promise is fulfilled with `undefined`; it is not rejected with the error of
the network fetch. -/
theorem fetch_failure_not_propagated :
    (onFetch (fun _ => .error "TypeError: Failed to fetch") []
      { url := "./app.js", method := "GET", mode := "no-cors", headers := [] }).result
        = .fulfilled none ∧
    (onFetch (fun _ => .error "TypeError: Failed to fetch") []
      { url := "./app.js", method := "GET", mode := "no-cors", headers := [] }).result
        ≠ .rejected "TypeError: Failed to fetch" := by
  decide

/-- Claim C9 as amended.  For every request that misses the cache and whose
network fetch fails: for a navigation request the handler's result is what
`caches.match('./index.html')` gives, the cached shell entry unchanged; for
any other request the result is `undefined`, the error being dropped.  The
cache storage is left as it was and one network request was made. -/
theorem fetch_failure_result (network : Request → Except String Response)
    (cs : CacheStorage) (request : Request) (err : String)
    (hmiss : cachesMatch cs request = none) (hfail : network request = .error err) :
    (request.mode = "navigate" →
      (onFetch network cs request).result = .fulfilled (cachesMatch cs shellRequest)) ∧
    (request.mode ≠ "navigate" →
      (onFetch network cs request).result = .fulfilled none) ∧
    (onFetch network cs request).caches = cs ∧
    (onFetch network cs request).networkRequests = [request] := by
  have hrun : onFetch network cs request
      = { result := .fulfilled (if request.mode = "navigate" then cachesMatch cs shellRequest
                                else none)
          caches := cs
          networkRequests := [request] } := by
    unfold onFetch
    rw [hmiss]
    simp only [hfail]
  rw [hrun]
  refine ⟨?_, ?_, rfl, rfl⟩
  · intro h; simp only [h, if_true]
  · intro h; simp only [h, if_false]

/-- Claim C9 as amended, offline navigation with the shell in the cache: the
handler answers with the cached shell. -/
theorem fetch_failure_shell_witness :
    (onFetch (fun _ => .error "offline")
        [(CACHE_NAME,
          [(shellRequest, { status := 200, type := "basic", vary := [], body := "<html>" })])]
        { url := "./about", method := "GET", mode := "navigate", headers := [] }).result
      = .fulfilled (some { status := 200, type := "basic", vary := [], body := "<html>" }) :=
  (fetch_failure_result (fun _ => .error "offline")
      [(CACHE_NAME,
        [(shellRequest, { status := 200, type := "basic", vary := [], body := "<html>" })])]
      { url := "./about", method := "GET", mode := "navigate", headers := [] }
      "offline" (by decide) rfl).1 rfl

/-- Claim C10 fails as stated.  First, a `GET` answered with status `204`,
a successful same-origin response: it is returned and nothing is stored.
Second, a `POST` answered with status `200` and type `basic`: the response is
returned, but `cache.put` rejects the request, the current-version cache
holds no entry for it, and a repeat of the request goes to the network
again.  Third, a `GET` answered with status `200`, type `basic` and
`Vary: *`: `cache.put` rejects the response and the repeat goes to the
network again. -/
theorem fetch_store_refused :
    (onFetch (fun _ => .ok { status := 204, type := "basic", vary := [], body := "" }) []
        { url := "./ping", method := "GET", mode := "cors", headers := [] })
      = { result := .fulfilled (some { status := 204, type := "basic", vary := [], body := "" })
          caches := []
          networkRequests := [{ url := "./ping", method := "GET", mode := "cors",
                                headers := [] }] } ∧
    (onFetch (fun _ => .ok { status := 200, type := "basic", vary := [], body := "ok" }) []
        { url := "./api", method := "POST", mode := "cors", headers := [] }).result
      = .fulfilled (some { status := 200, type := "basic", vary := [], body := "ok" }) ∧
    cacheMatch
        (cacheNamed
          (onFetch (fun _ => .ok { status := 200, type := "basic", vary := [], body := "ok" }) []
            { url := "./api", method := "POST", mode := "cors", headers := [] }).caches
          CACHE_NAME)
        { url := "./api", method := "POST", mode := "cors", headers := [] } = none ∧
    (onFetch (fun _ => .ok { status := 200, type := "basic", vary := [], body := "ok" })
        (onFetch (fun _ => .ok { status := 200, type := "basic", vary := [], body := "ok" }) []
          { url := "./api", method := "POST", mode := "cors", headers := [] }).caches
        { url := "./api", method := "POST", mode := "cors", headers := [] }).networkRequests
      = [{ url := "./api", method := "POST", mode := "cors", headers := [] }] ∧
    (onFetch (fun _ => .ok { status := 200, type := "basic", vary := ["*"], body := "v" })
        (onFetch (fun _ => .ok { status := 200, type := "basic", vary := ["*"], body := "v" }) []
          { url := "./page", method := "GET", mode := "cors", headers := [] }).caches
        { url := "./page", method := "GET", mode := "cors", headers := [] }).networkRequests
      = [{ url := "./page", method := "GET", mode := "cors", headers := [] }] := by
  decide

/-- Claim C10 as amended.  For every request and cache storage: when
`caches.match` finds an entry for the request the handler returns that entry,
leaves the storage alone and makes no network request.  On a miss answered by
the network it returns the network response after one network request;
afterwards the cache `CACHE_NAME` holds that response for the request exactly
when the response has status `200` and type `basic`, the request is a `GET`
and the response's `Vary` header does not list `*`.  In that case a repeat of
the request is served from the cache without a network request, whatever the
network would answer.  In every other case no cache has gained or lost an
entry, and when the status is not `200` or the type not `basic` the storage
is the same. -/
theorem fetch_cache_first_then_network (network : Request → Except String Response)
    (cs : CacheStorage) (request : Request) :
    (∀ resp, cachesMatch cs request = some resp →
      onFetch network cs request
        = { result := .fulfilled (some resp), caches := cs, networkRequests := [] }) ∧
    (∀ netResp, cachesMatch cs request = none → network request = .ok netResp →
      (onFetch network cs request).result = .fulfilled (some netResp) ∧
      (onFetch network cs request).networkRequests = [request] ∧
      (cacheMatch (cacheNamed (onFetch network cs request).caches CACHE_NAME) request
          = some netResp ↔
        (netResp.status = 200 ∧ netResp.type = "basic" ∧ request.method = "GET" ∧
          "*" ∉ netResp.vary)) ∧
      (¬ (netResp.status = 200 ∧ netResp.type = "basic") →
        (onFetch network cs request).caches = cs) ∧
      (¬ (netResp.status = 200 ∧ netResp.type = "basic" ∧ request.method = "GET" ∧
            "*" ∉ netResp.vary) →
        ∀ name, cacheNamed (onFetch network cs request).caches name = cacheNamed cs name) ∧
      ((netResp.status = 200 ∧ netResp.type = "basic" ∧ request.method = "GET" ∧
            "*" ∉ netResp.vary) →
        ∀ network2 : Request → Except String Response,
          onFetch network2 (onFetch network cs request).caches request
            = { result := .fulfilled (some netResp)
                caches := (onFetch network cs request).caches
                networkRequests := [] })) := by
  constructor
  · intro resp hhit
    unfold onFetch
    rw [hhit]
  · intro netResp hmiss hok
    by_cases hcond : netResp.status = 200 ∧ netResp.type = "basic"
    · have hne : ¬ (netResp.status ≠ 200 ∨ netResp.type ≠ "basic") := by
        rintro (h | h)
        · exact h hcond.1
        · exact h hcond.2
      have hrun : onFetch network cs request
          = { result := .fulfilled (some netResp)
              caches := cachesOpenPut cs CACHE_NAME request netResp
              networkRequests := [request] } := by
        unfold onFetch
        rw [hmiss]
        simp only [hok, hne, if_false]
      rw [hrun]
      simp only
      by_cases hacc : putAccepted request netResp = true
      · have hstor : netResp.status = 200 ∧ netResp.type = "basic" ∧ request.method = "GET" ∧
            "*" ∉ netResp.vary := by
          unfold putAccepted at hacc
          simp only [Bool.and_eq_true, Bool.not_eq_true', bne_iff_ne, beq_iff_eq] at hacc
          refine ⟨hcond.1, hcond.2, hacc.1.1, fun hmem => ?_⟩
          have : netResp.vary.contains "*" = true := by simpa using hmem
          rw [hacc.2] at this
          cases this
        have hfound := cachesMatch_cachesOpenPut cs CACHE_NAME request netResp hacc hmiss
        have hput : cachePut (cacheNamed cs CACHE_NAME) request netResp
            = some (((cacheNamed cs CACHE_NAME).filter fun e => !requestMatches request e)
                ++ [(request, netResp)]) := by
          unfold cachePut
          rw [if_pos hacc]
        have hnamed : cacheMatch (cacheNamed (cachesOpenPut cs CACHE_NAME request netResp)
            CACHE_NAME) request = some netResp := by
          rw [cacheNamed_cachesOpenPut, hput]
          exact cacheMatch_cachePut _ _ request netResp hput
        refine ⟨trivial, trivial, ⟨fun _ => hstor, fun _ => hnamed⟩, fun h => absurd hcond h,
          fun h => absurd hstor h, fun _ network2 => ?_⟩
        unfold onFetch
        simp only [hfound]
      · have hrej : putAccepted request netResp = false := by simpa using hacc
        have hnstor : ¬ (netResp.status = 200 ∧ netResp.type = "basic" ∧
            request.method = "GET" ∧ "*" ∉ netResp.vary) := by
          rintro ⟨h200, -, hget, hstar⟩
          apply hacc
          unfold putAccepted
          simp [hget, h200, hstar]
        have hsame := cacheNamed_cachesOpenPut_rejected cs CACHE_NAME CACHE_NAME request netResp
          hrej
        refine ⟨trivial, trivial, ⟨fun h => ?_, fun h => absurd h hnstor⟩,
          fun h => absurd hcond h,
          fun _ name => cacheNamed_cachesOpenPut_rejected cs CACHE_NAME name request netResp hrej,
          fun h => absurd h hnstor⟩
        rw [hsame, cacheNamed_miss cs CACHE_NAME request hmiss] at h
        cases h
    · have hne : netResp.status ≠ 200 ∨ netResp.type ≠ "basic" := by
        by_contra hcon
        push_neg at hcon
        exact hcond hcon
      have hrun : onFetch network cs request
          = { result := .fulfilled (some netResp), caches := cs
              networkRequests := [request] } := by
        unfold onFetch
        rw [hmiss]
        simp only [hok, hne, if_true]
      rw [hrun]
      simp only
      refine ⟨trivial, trivial, ⟨fun h => ?_, fun h => absurd ⟨h.1, h.2.1⟩ hcond⟩,
        fun _ => trivial, fun _ _ => trivial, fun h => absurd ⟨h.1, h.2.1⟩ hcond⟩
      rw [cacheNamed_miss cs CACHE_NAME request hmiss] at h
      cases h

/-- Claim C10 as amended, at a concrete request: a stylesheet fetched once
with a `GET` and an empty cache storage is served from the cache when the
network is gone. -/
theorem fetch_caches_response_witness :
    onFetch (fun _ => .error "offline")
        (onFetch (fun _ => .ok { status := 200, type := "basic", vary := [], body := "body" }) []
          { url := "./style.css", method := "GET", mode := "no-cors", headers := [] }).caches
        { url := "./style.css", method := "GET", mode := "no-cors", headers := [] }
      = { result := .fulfilled
            (some { status := 200, type := "basic", vary := [], body := "body" })
          caches :=
            (onFetch (fun _ => .ok { status := 200, type := "basic", vary := [], body := "body" })
              [] { url := "./style.css", method := "GET", mode := "no-cors",
                   headers := [] }).caches
          networkRequests := [] } :=
  ((fetch_cache_first_then_network
      (fun _ => .ok { status := 200, type := "basic", vary := [], body := "body" }) []
      { url := "./style.css", method := "GET", mode := "no-cors", headers := [] }).2
    { status := 200, type := "basic", vary := [], body := "body" } rfl rfl).2.2.2.2.2
    ⟨rfl, rfl, rfl, by decide⟩ (fun _ => .error "offline")

end Cbo
